import Mathlib

/-!
Verification of the peer discovery / connection / store-and-forward engine of the
private-network app (`src/services/peerManager.ts`, `peerStorage.ts`,
`peerStorageFallback.ts`, `webrtc.ts`) against its natural-language specification.

The TypeScript code is shallowly embedded: JS `Map`s become association lists
(`Map.set` replaces in place or appends, preserving insertion order), timestamps
(`Date.now()`) become explicit `Nat` parameters, asynchronous collaborator calls
(WebRTC sends, registry HTTP calls, SQLite queries) become oracle values passed in
explicitly, and fallible steps return `Except`/`Option`.
-/

namespace PrivNet

/-- JS `Map.prototype.set` / object-key assignment: if the key is present the value
is replaced in place (insertion order preserved), otherwise the pair is appended. -/
def mapSet (m : List (String × α)) (k : String) (v : α) : List (String × α) :=
  if m.any (fun p => p.1 = k) then m.map (fun p => if p.1 = k then (k, v) else p)
  else m ++ [(k, v)]

/-- JS `Map.prototype.get`: first (only) binding of the key, if any. -/
def mapGet (m : List (String × α)) (k : String) : Option α :=
  (m.find? (fun p => p.1 = k)).map Prod.snd

/-- JS `Map.prototype.has`. -/
def mapHas (m : List (String × α)) (k : String) : Bool :=
  m.any (fun p => p.1 = k)

/-- JS `Map.prototype.delete`: removes the binding of the key. -/
def mapDelete (m : List (String × α)) (k : String) : List (String × α) :=
  m.filter (fun p => p.1 ≠ k)

/-- Connection lifecycle states of a pooled `PeerConnection` (peerManager.ts). -/
inductive ConnState where
  | connecting | connected | failed | closed
deriving DecidableEq, Repr

/-- Discovery-level connection states of a cached `PeerInfo` (peerManager.ts). -/
inductive PeerConnState where
  | disconnected | discovering | signaling | connecting | connected | failed
deriving DecidableEq, Repr

/-- `PeerInfo` record of peerManager.ts: one entry of the in-memory `peerCache`. -/
structure PeerInfo where
  userId : String
  peerId : String
  signalAddress : String
  lastSeen : Nat
  isCoordinator : Bool
  connectionState : PeerConnState
  connectionPath : Option String := none
  canRelay : Bool
deriving DecidableEq, Repr

/-- A pooled connection entry of `PeerManager.connections`; the WebRTC handle
itself is opaque to the engine and is not modelled. -/
structure PeerConnection where
  peerId : String
  state : ConnState
  connectedAt : Nat
  isRelay : Bool
deriving DecidableEq, Repr

/-- The five discovery tiers of `connectToPeer`, in source order. -/
inductive Tier where
  | liveScan | p2pBroadcast | localCache | coordinator | registry
deriving DecidableEq, Repr, Fintype

/-- Position of a tier in the fallback chain (cheaper = smaller). -/
def tierRank : Tier → Nat
  | .liveScan => 0
  | .p2pBroadcast => 1
  | .localCache => 2
  | .coordinator => 3
  | .registry => 4

/-- The tier chain in the order `connectToPeer` consults it. -/
def tierOrder : List Tier :=
  [.liveScan, .p2pBroadcast, .localCache, .coordinator, .registry]

/-- Oracle results of the five discovery helpers for one `connectToPeer` call:
`findExistingConnection`, `queryConnectedPeers`, `queryCachedPeer`,
`queryCoordinators` and `queryRegistry` of peerManager.ts. -/
structure DiscoveryEnv where
  findExistingConnection : Option PeerConnection
  queryConnectedPeers : Option PeerInfo
  queryCachedPeer : Option PeerInfo
  queryCoordinators : Option PeerInfo
  queryRegistry : Option PeerInfo

/-- What a `connectToPeer` call resolves to: an already-live connection (tier 1),
a WebRTC establishment attempt on a discovered `PeerInfo` (tiers 2-5), or the
store-and-forward fallback (`null` return, peer marked offline). -/
inductive ConnectOutcome where
  | existing (c : PeerConnection)
  | establish (p : PeerInfo)
  | storeForward
deriving DecidableEq, Repr

/-- `PeerManager.connectToPeer`, instrumented with the list of tiers it invoked.
Mirrors the source's `if (!peerInfo)` chain: each later helper runs only when
every earlier one produced nothing. -/
def connectToPeer (env : DiscoveryEnv) : ConnectOutcome × List Tier :=
  match env.findExistingConnection with
  | some c => (.existing c, [.liveScan])
  | none =>
  match env.queryConnectedPeers with
  | some p => (.establish p, [.liveScan, .p2pBroadcast])
  | none =>
  match env.queryCachedPeer with
  | some p => (.establish p, [.liveScan, .p2pBroadcast, .localCache])
  | none =>
  match env.queryCoordinators with
  | some p => (.establish p, [.liveScan, .p2pBroadcast, .localCache, .coordinator])
  | none =>
  match env.queryRegistry with
  | some p => (.establish p, [.liveScan, .p2pBroadcast, .localCache, .coordinator, .registry])
  | none => (.storeForward, [.liveScan, .p2pBroadcast, .localCache, .coordinator, .registry])

/-- Whether a given tier's oracle produced a result in this environment. -/
def tierYields (env : DiscoveryEnv) : Tier → Bool
  | .liveScan => env.findExistingConnection.isSome
  | .p2pBroadcast => env.queryConnectedPeers.isSome
  | .localCache => env.queryCachedPeer.isSome
  | .coordinator => env.queryCoordinators.isSome
  | .registry => env.queryRegistry.isSome

/-- The outcome a given tier's oracle result would produce. -/
def tierPayload (env : DiscoveryEnv) : Tier → Option ConnectOutcome
  | .liveScan => env.findExistingConnection.map ConnectOutcome.existing
  | .p2pBroadcast => env.queryConnectedPeers.map ConnectOutcome.establish
  | .localCache => env.queryCachedPeer.map ConnectOutcome.establish
  | .coordinator => env.queryCoordinators.map ConnectOutcome.establish
  | .registry => env.queryRegistry.map ConnectOutcome.establish

/-- The cheapest tier that yields a peer, if any. -/
def firstHit (env : DiscoveryEnv) : Option Tier :=
  tierOrder.find? (tierYields env)

/-- A sample discovered peer used to instantiate the theorems on concrete data. -/
def samplePeer : PeerInfo :=
  { userId := "bob", peerId := "peer-bob", signalAddress := "addr-bob",
    lastSeen := 100, isCoordinator := false, connectionState := .disconnected,
    connectionPath := none, canRelay := true }

/-- A discovery environment in which only the P2P broadcast tier knows the peer. -/
def sampleEnv : DiscoveryEnv :=
  { findExistingConnection := none, queryConnectedPeers := some samplePeer,
    queryCachedPeer := none, queryCoordinators := none, queryRegistry := none }

/-- Result of one listener invocation inside `SimpleEventEmitter.emit`: the body
of the `forEach` wraps the call in try/catch, so a throwing listener contributes
`none` (its exception is logged and swallowed) and a normal return contributes
`some` of its value. -/
def invokeCaught {α ε β : Type} (l : α → Except ε β) (x : α) : Option β :=
  match l x with
  | .ok b => some b
  | .error _ => none

/-- `SimpleEventEmitter.emit`: looks up the event's listener array (no listeners:
return at once) and invokes every registered listener in registration order, each
call individually guarded by try/catch. -/
def emit {α ε β : Type} (listeners : List (String × List (α → Except ε β)))
    (event : String) (x : α) : List (Option β) :=
  match mapGet listeners event with
  | none => []
  | some ls => ls.map (fun l => invokeCaught l x)

/-- A concrete emitter registration: a throwing listener followed by a normal one. -/
def sampleEmitter : List (String × List (Nat → Except String Nat)) :=
  [("message", [fun _ => .error "listener blew up", fun n => .ok (n + 1)])]

/-- Membership-status tier of a user (`PeerStatus.status` in peerManager.ts). -/
inductive StatusTag where
  | direct | relay | offline
deriving DecidableEq, Repr

/-- `PeerStatus` of peerManager.ts: one entry of `networkMembers`. -/
structure PeerStatus where
  status : StatusTag
  connectionPath : Option String := none
  lastSeen : Nat
deriving DecidableEq, Repr

/-- A queued in-memory message (`messageQueue` entries get the original payload
spread together with a `queuedAt` stamp). -/
structure QueuedItem where
  payload : String
  queuedAt : Nat
deriving DecidableEq, Repr

/-- A `peer_routes` row of peerStorage.ts (unique per `(userId, networkId)`). -/
structure PeerRoute where
  userId : String
  peerId : String
  signalAddress : String
  lastSeen : Nat
  successRate : ℚ
  connectionPath : Option String := none
  networkId : String
deriving DecidableEq, Repr

/-- An `offline_messages` row of peerStorage.ts (unique per `messageId`). -/
structure OfflineMessage where
  messageId : String
  toUserId : String
  content : String
  queuedAt : Nat
  retryCount : Nat
  networkId : String
deriving DecidableEq, Repr

/-- Data-channel states as stored in `active_connections` (`opened` models the
source's `'open'`). -/
inductive DataChanState where
  | connecting | opened | closing | closed
deriving DecidableEq, Repr

/-- An `active_connections` row of peerStorage.ts; `lastPing` is written by
SQLite as `strftime('%s','now')`, i.e. in seconds. -/
structure ConnRow where
  peerId : String
  connectionState : ConnState
  dataChannelState : DataChanState
  connectedAt : Nat
  networkId : String
  lastPing : Nat
deriving DecidableEq, Repr

/-- The three tables of the persistent peer cache. -/
structure StorageDB where
  peerRoutes : List PeerRoute
  offlineMessages : List OfflineMessage
  activeConnections : List ConnRow
deriving DecidableEq, Repr

/-- The mutable state of a `PeerManager` instance, together with the persistent
cache it writes through to. -/
structure PMState where
  connections : List (String × PeerConnection)
  peerCache : List (String × PeerInfo)
  networkMembers : List (String × PeerStatus)
  messageQueue : List (String × List QueuedItem)
  currentNetworkId : Option String
  currentUserId : Option String
  isCoordinator : Bool
  storage : StorageDB
deriving DecidableEq, Repr

/-- JS template-literal rendering of a non-negative integer (`${Date.now()}`):
standard decimal digits, most significant first. -/
def jsNumToString (n : Nat) : String :=
  if n = 0 then "0" else String.mk (((Nat.digits 10 n).map Nat.digitChar).reverse)

/-- JS template-literal rendering of a nullable string: `null` renders as "null". -/
def jsStrOpt : Option String → String
  | some s => s
  | none => "null"

/-- `PeerManager.getCurrentPeerId`: builds the advertised identifier from the
current user id and the current clock reading, afresh on every call. -/
def getCurrentPeerId (currentUserId : Option String) (now : Nat) : String :=
  "peer_" ++ jsStrOpt currentUserId ++ "_" ++ jsNumToString now

/-- Decimal decoding, a left inverse of `jsNumToString`. -/
def decodeDecimal (s : String) : Nat :=
  Nat.ofDigits 10 ((s.data.map (fun c => c.toNat - 48)).reverse)

/-- One entry of a gossip `knownPeers` sample. -/
structure GossipPeer where
  userId : String
  peerId : String
  signalAddress : String
  lastSeen : Nat
  isCoordinator : Bool
  canRelay : Bool
deriving DecidableEq, Repr

/-- One entry of a gossip `networkMembers` sample. -/
structure MemberSample where
  userId : String
  status : StatusTag
  lastSeen : Nat
deriving DecidableEq, Repr

/-- An incoming or outgoing `PRESENCE_ANNOUNCEMENT` message. -/
structure PresenceMsg where
  userId : String
  peerId : String
  signalAddress : String
  capabilities : List String
  networkId : String
  timestamp : Nat
  isCoordinator : Bool
  knownPeers : List GossipPeer
  networkMembers : List MemberSample
deriving DecidableEq, Repr

/-- `PeerStorageService.storePeerRoute`: SQLite `INSERT OR REPLACE` keyed by the
table's `UNIQUE(user_id, network_id)` constraint — an unconditional overwrite,
with no comparison against the stored row's `last_seen`. -/
def storePeerRouteSvc (rows : List PeerRoute) (r : PeerRoute) : List PeerRoute :=
  if rows.any (fun q => q.userId == r.userId && q.networkId == r.networkId) then
    rows.map (fun q => if q.userId == r.userId && q.networkId == r.networkId then r else q)
  else rows ++ [r]

/-- `PeerManager.storePeerRoute`: a no-op without a current network id, otherwise
writes the peer's route row (`successRate` 1.0) through to the persistent cache. -/
def pmStorePeerRoute (st : PMState) (peerInfo : PeerInfo) : PMState :=
  match st.currentNetworkId with
  | none => st
  | some nid =>
      { st with storage := { st.storage with
          peerRoutes := storePeerRouteSvc st.storage.peerRoutes
            { userId := peerInfo.userId, peerId := peerInfo.peerId,
              signalAddress := peerInfo.signalAddress, lastSeen := peerInfo.lastSeen,
              successRate := 1, connectionPath := peerInfo.connectionPath,
              networkId := nid } } }

/-- `PeerManager.updatePeerStatus`: unconditional overwrite of the member's
status entry (the `peerStatusUpdate` event emission is not modelled here). -/
def updatePeerStatus (st : PMState) (userId : String) (status : PeerStatus) : PMState :=
  { st with networkMembers := mapSet st.networkMembers userId status }

/-- The `PeerInfo` a presence announcement is recorded as. `message.peerId ||
fromPeerId` and `message.timestamp || Date.now()` are JS `||` on possibly-falsy
values (the empty string, 0). The entry is marked `connected` and gets no
connection path. -/
def presencePeerInfo (msg : PresenceMsg) (fromPeerId : String) (now : Nat) : PeerInfo :=
  { userId := msg.userId,
    peerId := if msg.peerId ≠ "" then msg.peerId else fromPeerId,
    signalAddress := msg.signalAddress,
    lastSeen := if msg.timestamp ≠ 0 then msg.timestamp else now,
    isCoordinator := msg.isCoordinator,
    connectionState := .connected,
    connectionPath := none,
    canRelay := msg.capabilities.contains "relay" }

/-- One iteration of the gossip `knownPeers` loop in
`handlePresenceAnnouncement`: the device's own user id and already-cached peer
ids are skipped (`continue`); an unknown peer is added to the cache with a
`via <reporter>` connection path and stored to the persistent cache. -/
def addGossipPeer (reporter : String) (curUser : Option String) (st : PMState)
    (gp : GossipPeer) : PMState :=
  if curUser = some gp.userId ∨ mapHas st.peerCache gp.peerId then st
  else
    let discovered : PeerInfo :=
      { userId := gp.userId, peerId := gp.peerId, signalAddress := gp.signalAddress,
        lastSeen := gp.lastSeen, isCoordinator := gp.isCoordinator,
        connectionState := .disconnected, canRelay := gp.canRelay,
        connectionPath := some ("via " ++ reporter) }
    pmStorePeerRoute
      { st with peerCache := mapSet st.peerCache gp.peerId discovered } discovered

/-- One iteration of the gossip `networkMembers` loop in
`handlePresenceAnnouncement`: overwrite only when no status is stored or the
stored status is strictly older than the incoming sample. -/
def mergeMemberSample (reporter : String) (st : PMState) (m : MemberSample) : PMState :=
  let newStatus : PeerStatus :=
    { status := m.status, lastSeen := m.lastSeen,
      connectionPath := some (if m.status = .direct then "direct" else "via " ++ reporter) }
  match mapGet st.networkMembers m.userId with
  | some cur => if cur.lastSeen < m.lastSeen then updatePeerStatus st m.userId newStatus else st
  | none => updatePeerStatus st m.userId newStatus

/-- `PeerManager.handlePresenceAnnouncement` (local state effects; the log lines
and outgoing traffic are not modelled). The guard drops messages with a falsy
userId or networkId or a network id other than the session's. The announcer's
record and its persistent route are overwritten unconditionally; the gossip
samples are then merged entry by entry. -/
def handlePresenceAnnouncement (st : PMState) (msg : PresenceMsg)
    (fromPeerId : String) (now : Nat) : PMState :=
  if msg.userId = "" ∨ msg.networkId = "" ∨ st.currentNetworkId ≠ some msg.networkId then st
  else
    let peerInfo := presencePeerInfo msg fromPeerId now
    let st1 := { st with peerCache := mapSet st.peerCache peerInfo.peerId peerInfo }
    let st2 := updatePeerStatus st1 msg.userId
      { status := .direct, lastSeen := peerInfo.lastSeen, connectionPath := some "direct" }
    let st3 := pmStorePeerRoute st2 peerInfo
    let st4 := msg.knownPeers.foldl (addGossipPeer msg.userId st.currentUserId) st3
    msg.networkMembers.foldl (mergeMemberSample msg.userId) st4

/-- One entry of the outgoing `knownPeers` gossip sample. -/
def toGossipPeer (p : PeerInfo) : GossipPeer :=
  { userId := p.userId, peerId := p.peerId, signalAddress := p.signalAddress,
    lastSeen := p.lastSeen, isCoordinator := p.isCoordinator, canRelay := p.canRelay }

/-- `PeerManager.broadcastPresenceToP2P`: nothing is broadcast without an active
session; otherwise the enhanced presence announcement sent to all connected
peers — a freshly evaluated `getCurrentPeerId`, a sample of up to 10 known
peers, and the member-status snapshot. -/
def broadcastPresenceToP2P (st : PMState) (now : Nat) : Option PresenceMsg :=
  match st.currentUserId, st.currentNetworkId with
  | some uid, some nid =>
      if uid = "" ∨ nid = "" then none
      else
        some { userId := uid,
               peerId := getCurrentPeerId (some uid) now,
               signalAddress := "http://192.168.1.109:3005",
               capabilities := ["relay", "store"],
               networkId := nid,
               timestamp := now,
               isCoordinator := st.isCoordinator,
               knownPeers :=
                 (((st.peerCache.map Prod.snd).filter (fun p => p.userId ≠ uid)).map
                   toGossipPeer).take 10,
               networkMembers := st.networkMembers.map (fun p =>
                 { userId := p.1, status := p.2.status, lastSeen := p.2.lastSeen }) }
  | _, _ => none

/-- The body `announcePresenceToRegistry` posts to the directory (peer id,
signal address, capabilities): again a fresh `getCurrentPeerId` evaluation;
nothing is posted without a current network id. -/
def announcePresenceBody (st : PMState) (now : Nat) :
    Option (String × String × List String) :=
  match st.currentNetworkId with
  | none => none
  | some _ => some (getCurrentPeerId st.currentUserId now,
      "http://192.168.1.109:3005", ["relay", "store"])

/-- Oracle results of the collaborator calls inside one `sendMessage` attempt
(`connectToPeer`'s own state effects are abstracted into the oracle). -/
structure SendEnv where
  connectResult : Option PeerConnection
  directSendOk : Bool
  relayConn : Option PeerConnection
  relaySendOk : Bool

/-- `PeerManager.queueMessage`: append to the user's in-memory queue (creating
it when absent), stamping the payload with `queuedAt`. -/
def queueMessage (st : PMState) (userId : String) (payload : String) (now : Nat) :
    PMState :=
  let q := (mapGet st.messageQueue userId).getD []
  { st with messageQueue :=
      mapSet st.messageQueue userId (q ++ [{ payload := payload, queuedAt := now }]) }

/-- `PeerStorageService.storeOfflineMessage`: SQLite `INSERT OR REPLACE` keyed
by the unique `message_id`. -/
def storeOfflineMessageSvc (rows : List OfflineMessage) (m : OfflineMessage) :
    List OfflineMessage :=
  if rows.any (fun q => q.messageId == m.messageId) then
    rows.map (fun q => if q.messageId == m.messageId then m else q)
  else rows ++ [m]

/-- The generated offline-message id `msg_<Date.now()>_<Math.random()>`; the
random component is an explicit parameter. -/
def mkMessageId (now : Nat) (rand : String) : String :=
  "msg_" ++ jsNumToString now ++ "_" ++ rand

/-- `PeerManager.storeOfflineMessageLocally`: silently does nothing without a
current network id; otherwise writes a fresh `OfflineMessage` row with
`retryCount` 0 for the current network (a storage error would be caught and
logged). -/
def storeOfflineMessageLocally (st : PMState) (userId : String) (payload : String)
    (now : Nat) (rand : String) : PMState :=
  match st.currentNetworkId with
  | none => st
  | some nid =>
    let row : OfflineMessage :=
      { messageId := mkMessageId now rand, toUserId := userId, content := payload,
        queuedAt := now, retryCount := 0, networkId := nid }
    { st with storage := { st.storage with
        offlineMessages := storeOfflineMessageSvc st.storage.offlineMessages row } }

/-- `PeerManager.sendMessage`: try a direct send on a `connected` connection,
then a relay through a connected `canRelay` peer, and otherwise queue the
message in memory, best-effort hand it to a coordinator (a network-only effect,
not part of the local state), store it to the local offline table, and return
`false`. -/
def sendMessage (st : PMState) (env : SendEnv) (userId : String) (payload : String)
    (now : Nat) (rand : String) : Bool × PMState :=
  if (env.connectResult.map (fun c => c.state) = some ConnState.connected)
      ∧ env.directSendOk then
    (true, st)
  else if env.relayConn.isSome ∧ env.relaySendOk then
    (true, st)
  else
    let st1 := queueMessage st userId payload now
    let st2 := storeOfflineMessageLocally st1 userId payload now rand
    (false, st2)

/-- The pool ceiling `MAX_ACTIVE_CONNECTIONS` declared in peerManager.ts. -/
def MAX_ACTIVE_CONNECTIONS : Nat := 5

/-- `PeerManager.establishConnection`: when the WebRTC service yields a
connection handle, insert a fresh `connecting` entry into the pool — with no
capacity check against `MAX_ACTIVE_CONNECTIONS` and no prior eviction — update
the peer cache and member status, and store the route. -/
def establishConnection (st : PMState) (peerInfo : PeerInfo) (webrtcOk : Bool)
    (now : Nat) : Option PeerConnection × PMState :=
  if !webrtcOk then (none, st)
  else
    let conn : PeerConnection :=
      { peerId := peerInfo.peerId, state := .connecting, connectedAt := now,
        isRelay := false }
    let st1 := { st with
      connections := mapSet st.connections peerInfo.peerId conn,
      peerCache := mapSet st.peerCache peerInfo.peerId peerInfo }
    let st2 := updatePeerStatus st1 peerInfo.userId
      { status := .direct, lastSeen := now, connectionPath := none }
    (some conn, pmStorePeerRoute st2 peerInfo)

/-- `PeerManager.cleanupStaleConnections` (run from the 30s heartbeat): evict
entries that are `failed`, or older than the 60s staleness threshold while not
`connected`; the WebRTC close call is a collaborator side effect. -/
def cleanupStaleConnections (st : PMState) (now : Nat) : PMState :=
  { st with connections := st.connections.filter (fun p =>
      !(p.2.state == ConnState.failed
        || (decide (now - p.2.connectedAt > 60000) && !(p.2.state == ConnState.connected)))) }

/-- `PeerManager.handleConnectionStateChange`: `connected` marks the pool entry
connected, `disconnected` marks it failed and deletes it (event emissions not
modelled); unknown peers are ignored. -/
def handleConnectionStateChange (st : PMState) (peerId : String) (state : String) :
    PMState :=
  match mapGet st.connections peerId with
  | none => st
  | some conn =>
    if state = "connected" then
      { st with connections := mapSet st.connections peerId { conn with state := .connected } }
    else if state = "disconnected" then
      { st with connections := mapDelete st.connections peerId }
    else st

/-- The default `maxAge` of `cleanupStaleData`: 7 days in milliseconds. -/
def DEFAULT_MAX_AGE : Nat := 7 * 24 * 60 * 60 * 1000

/-- `PeerStorageService.cleanupStaleData` (SQLite backend): computes the single
cutoff `Math.floor((Date.now() - maxAge) / 1000)` — a value in seconds — and
issues one DELETE per table comparing it against `last_seen` and `queued_at`
(both stored in milliseconds from `Date.now()`) and `last_ping` (stored in
seconds by `strftime('%s','now')`). All three tables use the same cutoff. -/
def cleanupStaleData (db : StorageDB) (networkId : String) (maxAge : Nat)
    (now : Nat) : StorageDB :=
  let cutoffTime := (now - maxAge) / 1000
  { peerRoutes := db.peerRoutes.filter (fun r =>
      !(r.networkId == networkId && decide (r.lastSeen < cutoffTime))),
    offlineMessages := db.offlineMessages.filter (fun m =>
      !(m.networkId == networkId && decide (m.queuedAt < cutoffTime))),
    activeConnections := db.activeConnections.filter (fun c =>
      !(c.networkId == networkId && decide (c.lastPing < cutoffTime))) }

/-- The session resources `destroy` tears down. -/
structure TeardownState where
  heartbeatTimer : Bool
  coordinatorTimer : Bool
  p2pPresenceTimer : Bool
  registryPresenceTimer : Bool
  poolPeerIds : List String
  webrtcPeerIds : List String
  signalingOpen : Bool
  discoveryIds : List String
deriving DecidableEq, Repr

/-- The observable events `destroy` performs, in the order it performs them. -/
inductive TdEvent where
  | stopHeartbeat
  | stopCoordinator
  | stopP2pPresence
  | stopRegistryPresence
  | closeConn (peerId : String)
  | closeSignaling
  | closeRtcContext (peerId : String)
  | cancelDiscovery (requestId : String)
  | clearCaches
  | closeStorage
  | removeListeners
deriving DecidableEq, Repr

/-- Teardown phase of an event; the claimed ordering is that phases only grow
along the trace. -/
def tdPhase : TdEvent → Nat
  | .stopHeartbeat => 0
  | .stopCoordinator => 0
  | .stopP2pPresence => 0
  | .stopRegistryPresence => 0
  | .closeConn _ => 1
  | .closeSignaling => 2
  | .closeRtcContext _ => 3
  | .cancelDiscovery _ => 4
  | .clearCaches => 5
  | .closeStorage => 6
  | .removeListeners => 7

/-- Event trace of `PeerManager.destroy` on the no-exception path, including
`WebRTCService.destroy` (which closes the signaling socket and then disposes
whatever negotiation contexts remain in its map — the pool's entries were
already closed and removed from it by the `closeConnection` loop). The
`cleanupStaleData` call is dead — its guard reads the network id that the
previous statement reset to null — so it emits nothing. -/
def destroyTrace (st : TeardownState) : List TdEvent :=
  (if st.heartbeatTimer then [TdEvent.stopHeartbeat] else [])
  ++ (if st.coordinatorTimer then [TdEvent.stopCoordinator] else [])
  ++ (if st.p2pPresenceTimer then [TdEvent.stopP2pPresence] else [])
  ++ (if st.registryPresenceTimer then [TdEvent.stopRegistryPresence] else [])
  ++ st.poolPeerIds.map TdEvent.closeConn
  ++ (if st.signalingOpen then [TdEvent.closeSignaling] else [])
  ++ (st.webrtcPeerIds.filter (fun pid => !st.poolPeerIds.contains pid)).map
      TdEvent.closeRtcContext
  ++ st.discoveryIds.map TdEvent.cancelDiscovery
  ++ [TdEvent.clearCaches, TdEvent.closeStorage, TdEvent.removeListeners]

/-- Which collaborator calls inside `destroy` throw in a given run. -/
structure DestroyEnv where
  closeConnThrows : String → Bool
  webrtcDestroyThrows : Bool
  cleanupThrows : Bool
  storageCloseThrows : Bool

/-- The successive statement groups of `destroy`. -/
inductive TdStep where
  | stopTimers
  | closeConnections
  | webrtcDestroy
  | clearDiscovery
  | clearMemCaches
  | resetStateVars
  | cleanupStale
  | closeStorageHandle
  | removeAllListeners
deriving DecidableEq, Repr

/-- Every step of `destroy`, in order. -/
def allTdSteps : List TdStep :=
  [.stopTimers, .closeConnections, .webrtcDestroy, .clearDiscovery, .clearMemCaches,
   .resetStateVars, .cleanupStale, .closeStorageHandle, .removeAllListeners]

/-- `PeerManager.destroy` with fallible collaborators: which steps ran, and
whether an exception escaped to the caller. Timer clearing cannot throw. The
per-connection `webrtcService.closeConnection` loop and the awaited
`webrtcService.destroy()` are NOT wrapped in try/catch, so a throw there aborts
the rest of the function and propagates. `cleanupStaleData` and
`peerStorage.close()` are each individually wrapped in try/catch, so their
errors are logged and swallowed and the function continues. -/
def destroySteps (st : TeardownState) (env : DestroyEnv) : List TdStep × Bool :=
  if st.poolPeerIds.any env.closeConnThrows then ([TdStep.stopTimers], true)
  else if env.webrtcDestroyThrows then ([TdStep.stopTimers, TdStep.closeConnections], true)
  else (allTdSteps, false)

/-- The payload of a `PEER_FOUND` reply. -/
structure PeerFoundInfo where
  userId : String
  signalAddress : String
  lastSeen : Nat
  canRelay : Bool
deriving DecidableEq, Repr

/-- The discovery-request table (`discoveryRequests` keys) plus a ledger of the
value each request's promise resolved with: `some info` from a `PEER_FOUND`
reply, `none` from the timeout callback. -/
structure DiscState where
  pending : List String
  results : List (String × Option PeerFoundInfo)
deriving DecidableEq, Repr

/-- Events a discovery request table can experience after creation. -/
inductive DiscEvent where
  | peerFound (requestId : String) (info : PeerFoundInfo)
  | timeoutFire (requestId : String)
deriving DecidableEq, Repr

/-- `handlePeerFound` and the discovery `setTimeout` callback. A pending request
id resolves (first arrival wins): the timer is cleared, the id is deleted from
the table, and the promise settles. A non-pending id — already resolved or
timed out — leaves the state completely unchanged. -/
def discStep (s : DiscState) : DiscEvent → DiscState
  | .peerFound rid info =>
      if rid ∈ s.pending then
        { pending := s.pending.erase rid, results := s.results ++ [(rid, some info)] }
      else s
  | .timeoutFire rid =>
      if rid ∈ s.pending then
        { pending := s.pending.erase rid, results := s.results ++ [(rid, none)] }
      else s

/-- Folding a sequence of discovery events over the table. -/
def discRun (s : DiscState) (evs : List DiscEvent) : DiscState :=
  evs.foldl discStep s

/-- The resolution a single event carries. -/
def discResolution : DiscEvent → Option PeerFoundInfo
  | .peerFound _ info => some info
  | .timeoutFire _ => none

/-- The request id a discovery event targets. -/
def discTarget : DiscEvent → String
  | .peerFound rid _ => rid
  | .timeoutFire rid => rid

/-- The empty persistent cache. -/
def emptyDB : StorageDB :=
  { peerRoutes := [], offlineMessages := [], activeConnections := [] }

/-- A cached record for peer id `p1`, last seen at time 10, with a connection
path learned earlier. -/
def cachedRecC2 : PeerInfo :=
  { userId := "carol", peerId := "p1", signalAddress := "old-addr", lastSeen := 10,
    isCoordinator := false, connectionState := .disconnected,
    connectionPath := some "via bob", canRelay := true }

/-- A presence announcement from carol whose timestamp (5) is OLDER than the
cached record's lastSeen (10). -/
def staleMsgC2 : PresenceMsg :=
  { userId := "carol", peerId := "p1", signalAddress := "new-addr",
    capabilities := [], networkId := "net", timestamp := 5, isCoordinator := false,
    knownPeers := [], networkMembers := [] }

/-- A peer-manager state with the cached record for `p1` in an active session. -/
def stC2 : PMState :=
  { connections := [], peerCache := [("p1", cachedRecC2)], networkMembers := [],
    messageQueue := [], currentNetworkId := some "net",
    currentUserId := some "dave", isCoordinator := false, storage := emptyDB }

/-- The stored member status for eve in `stC2w`. -/
def eveStatusC2w : PeerStatus :=
  { status := .direct, connectionPath := none, lastSeen := 50 }

/-- A state with a cached peer record and a member status entry, used to
instantiate the guarded gossip-merge paths. -/
def stC2w : PMState :=
  { connections := [], peerCache := [("p9", cachedRecC2)],
    networkMembers := [("eve", eveStatusC2w)],
    messageQueue := [], currentNetworkId := some "net",
    currentUserId := some "dave", isCoordinator := false, storage := emptyDB }

/-- A gossiped peer unknown to `stC2w`. -/
def gpC2w : GossipPeer :=
  { userId := "zoe", peerId := "pz", signalAddress := "az", lastSeen := 1,
    isCoordinator := false, canRelay := false }

/-- A gossiped member sample for eve older than the stored status. -/
def memberC2w : MemberSample :=
  { userId := "eve", status := .relay, lastSeen := 40 }

/-- A `sendMessage` environment in which the direct and relay attempts are both
unavailable. -/
def envC3 : SendEnv :=
  { connectResult := none, directSendOk := false, relayConn := none,
    relaySendOk := false }

/-- A session-less state (before `initialize` / after `destroy`): no current
network id. -/
def stC3 : PMState :=
  { connections := [], peerCache := [], networkMembers := [], messageQueue := [],
    currentNetworkId := none, currentUserId := some "dave", isCoordinator := false,
    storage := emptyDB }

/-- The same state but with an active network id. -/
def stC3w : PMState :=
  { stC3 with currentNetworkId := some "net" }

/-- A minimal discovered peer used for pool experiments. -/
def mkPeerC4 (uid pid : String) : PeerInfo :=
  { userId := uid, peerId := pid, signalAddress := "a", lastSeen := 0,
    isCoordinator := false, connectionState := .disconnected,
    connectionPath := none, canRelay := true }

/-- An empty session-less manager state. -/
def stC4 : PMState :=
  { connections := [], peerCache := [], networkMembers := [], messageQueue := [],
    currentNetworkId := none, currentUserId := none, isCoordinator := false,
    storage := emptyDB }

/-- Six consecutive connection attempts to six distinct peers, with no close and
no sweep in between. -/
def connectSix : PMState :=
  ["p1", "p2", "p3", "p4", "p5", "p6"].foldl
    (fun s pid => (establishConnection s (mkPeerC4 pid pid) true 0).2) stC4

/-- A pool entry still connecting since time 0. -/
def connA : PeerConnection :=
  { peerId := "pa", state := .connecting, connectedAt := 0, isRelay := false }

/-- A failed pool entry. -/
def connB : PeerConnection :=
  { peerId := "pb", state := .failed, connectedAt := 0, isRelay := false }

/-- A state with a two-entry pool for the sweep witness. -/
def stC4w : PMState :=
  { stC4 with connections := [("pa", connA), ("pb", connB)] }

/-- The clock reading used in the C5 evaluation: 1700000000000 ms. -/
def nowC5 : Nat := 1700000000000

/-- An offline message queued 25 hours before `nowC5` (in milliseconds), i.e.
past the claimed 24-hour TTL. -/
def msgC5 : OfflineMessage :=
  { messageId := "m1", toUserId := "dora", content := "hi",
    queuedAt := 1699910000000, retryCount := 0, networkId := "net" }

/-- A peer route last seen 8 days before `nowC5` (in milliseconds), i.e. past
the 7-day cutoff. -/
def routeC5 : PeerRoute :=
  { userId := "bob", peerId := "p1", signalAddress := "a",
    lastSeen := 1699308800000, successRate := 1, connectionPath := none,
    networkId := "net" }

/-- A connection row whose `last_ping` (in seconds, as SQLite writes it) is 8
days before `nowC5`. -/
def connRowC5 : ConnRow :=
  { peerId := "p1", connectionState := .connected, dataChannelState := .opened,
    connectedAt := 0, networkId := "net", lastPing := 1699308800 }

/-- The persistent cache holding the three C5 rows. -/
def dbC5 : StorageDB :=
  { peerRoutes := [routeC5], offlineMessages := [msgC5],
    activeConnections := [connRowC5] }

/-- A live session about to be torn down: three running timers, two pooled
connections (one of which the WebRTC map also holds), one extra negotiation
context, an open signaling socket and one in-flight discovery request. -/
def stC6 : TeardownState :=
  { heartbeatTimer := true, coordinatorTimer := false, p2pPresenceTimer := true,
    registryPresenceTimer := true, poolPeerIds := ["pa", "pb"],
    webrtcPeerIds := ["pa", "px"], signalingOpen := true, discoveryIds := ["r1"] }

/-- A destroy run in which `webrtcService.destroy()` throws. -/
def envC7bad : DestroyEnv :=
  { closeConnThrows := fun _ => false, webrtcDestroyThrows := true,
    cleanupThrows := false, storageCloseThrows := false }

/-- A destroy run in which only the guarded storage steps throw. -/
def envC7ok : DestroyEnv :=
  { closeConnThrows := fun _ => false, webrtcDestroyThrows := false,
    cleanupThrows := true, storageCloseThrows := true }

/-- The first `PEER_FOUND` payload used for C8. -/
def infoC8 : PeerFoundInfo :=
  { userId := "carol", signalAddress := "a", lastSeen := 5, canRelay := true }

/-- A second, different `PEER_FOUND` payload arriving later. -/
def infoC8b : PeerFoundInfo :=
  { userId := "carol", signalAddress := "b", lastSeen := 9, canRelay := false }

/-- A discovery table with one pending request. -/
def sC8 : DiscState := { pending := ["q1"], results := [] }

/-- Lookup on a cons inspects the head first. -/
theorem mapGet_cons (hd : String × α) (tl : List (String × α)) (k : String) :
    mapGet (hd :: tl) k = if hd.1 = k then some hd.2 else mapGet tl k := by
  by_cases h : hd.1 = k <;> simp [mapGet, h]

/-- A key `has` reports absent is not bound. -/
theorem mapGet_eq_none_of_not_has (m : List (String × α)) (k : String)
    (h : mapHas m k = false) : mapGet m k = none := by
  induction m with
  | nil => rfl
  | cons hd tl ih =>
    simp only [mapHas, List.any_cons, Bool.or_eq_false_iff] at h
    rw [mapGet_cons, if_neg (by simpa using h.1)]
    exact ih h.2

/-- Lookup distributes over list concatenation, left side first. -/
theorem mapGet_append (l1 l2 : List (String × α)) (k : String) :
    mapGet (l1 ++ l2) k = (mapGet l1 k).or (mapGet l2 k) := by
  cases h : l1.find? (fun p => p.1 = k) <;>
    simp [mapGet, List.find?_append, h]

/-- In-place replacement resolves the replaced key when it occurs. -/
theorem mapGet_map_replace_self (m : List (String × α)) (k : String) (v : α)
    (hany : m.any (fun p => p.1 = k) = true) :
    mapGet (m.map (fun p => if p.1 = k then (k, v) else p)) k = some v := by
  induction m with
  | nil => simp at hany
  | cons hd tl ih =>
    rw [List.map_cons, mapGet_cons]
    by_cases hk : hd.1 = k
    · simp [hk]
    · rw [if_neg hk, if_neg hk]
      apply ih
      simp only [List.any_cons, Bool.or_eq_true] at hany
      rcases hany with h1 | h2
      · exact absurd (by simpa using h1) hk
      · exact h2

/-- In-place replacement of one key leaves other keys' bindings unchanged. -/
theorem mapGet_map_replace_ne (m : List (String × α)) (k k' : String) (v : α)
    (h : k' ≠ k) :
    mapGet (m.map (fun p => if p.1 = k then (k, v) else p)) k' = mapGet m k' := by
  induction m with
  | nil => rfl
  | cons hd tl ih =>
    rw [List.map_cons, mapGet_cons, mapGet_cons]
    by_cases hk : hd.1 = k
    · have : ¬(k = k') := fun hh => h hh.symm
      simp [hk, this, ih]
    · by_cases hk' : hd.1 = k' <;> simp [hk, hk', ih, h]

/-- Reading back the key just set yields the new value. -/
theorem mapGet_mapSet_self (m : List (String × α)) (k : String) (v : α) :
    mapGet (mapSet m k v) k = some v := by
  unfold mapSet
  cases hany : m.any (fun p => p.1 = k) with
  | true =>
    rw [if_pos rfl]
    exact mapGet_map_replace_self m k v hany
  | false =>
    rw [if_neg (by simp), mapGet_append, mapGet_eq_none_of_not_has m k hany]
    simp [mapGet]

/-- Setting one key leaves every other key's binding unchanged. -/
theorem mapGet_mapSet_ne (m : List (String × α)) (k k' : String) (v : α)
    (h : k' ≠ k) : mapGet (mapSet m k v) k' = mapGet m k' := by
  unfold mapSet
  cases hany : m.any (fun p => p.1 = k) with
  | true =>
    rw [if_pos rfl]
    exact mapGet_map_replace_ne m k k' v h
  | false =>
    rw [if_neg (by simp), mapGet_append]
    have hkk : ¬(k = k') := fun hh => h hh.symm
    have hnone : mapGet [(k, v)] k' = none := by simp [mapGet, hkk]
    rw [hnone]
    cases mapGet m k' <;> rfl

/-- Inserting an absent key grows the map by exactly one entry. -/
theorem length_mapSet_of_not_has (m : List (String × α)) (k : String) (v : α)
    (h : mapHas m k = false) : (mapSet m k v).length = m.length + 1 := by
  unfold mapSet
  rw [show m.any (fun p => p.1 = k) = false from h]
  simp

/-- `pmStorePeerRoute` only writes to the persistent store: the in-memory
structures are untouched. -/
theorem pmStorePeerRoute_preserves_mem (st : PMState) (p : PeerInfo) :
    (pmStorePeerRoute st p).peerCache = st.peerCache
    ∧ (pmStorePeerRoute st p).networkMembers = st.networkMembers
    ∧ (pmStorePeerRoute st p).connections = st.connections
    ∧ (pmStorePeerRoute st p).messageQueue = st.messageQueue
    ∧ (pmStorePeerRoute st p).currentNetworkId = st.currentNetworkId := by
  cases h : st.currentNetworkId <;> simp [pmStorePeerRoute, h]

/-- C1: `connectToPeer` tries the discovery tiers in the strict order
live-connection scan, P2P broadcast, local cache, coordinator query, registry
lookup; it short-circuits at the first tier that yields a peer (that tier is the
last one invoked and supplies the outcome), a tier is invoked only when every
cheaper tier was invoked and returned nothing, and when no tier yields the call
falls through to store-and-forward having tried all five. -/
theorem connectToPeer_strict_tier_order (env : DiscoveryEnv) :
    (connectToPeer env).2 <+: tierOrder
    ∧ (∀ t ∈ (connectToPeer env).2, ∀ t', tierRank t' < tierRank t →
        t' ∈ (connectToPeer env).2 ∧ tierYields env t' = false)
    ∧ (∀ t, firstHit env = some t →
        ((connectToPeer env).2).getLast? = some t
        ∧ tierPayload env t = some (connectToPeer env).1)
    ∧ (firstHit env = none →
        (connectToPeer env).1 = .storeForward ∧ (connectToPeer env).2 = tierOrder) := by
  obtain ⟨f, q, c, k, r⟩ := env
  cases f <;> cases q <;> cases c <;> cases k <;> cases r <;>
    refine ⟨?_, ?_, ?_, ?_⟩ <;>
      simp_all [connectToPeer, firstHit, tierOrder, tierYields, tierPayload,
        tierRank, List.IsPrefix] <;>
      decide

/-- Witness for C1 on a concrete environment: with only tier 2 yielding, the
trace ends at the P2P broadcast tier and its payload is the outcome. -/
theorem connectToPeer_strict_tier_order_witness :
    ((connectToPeer sampleEnv).2).getLast? = some Tier.p2pBroadcast
    ∧ tierPayload sampleEnv Tier.p2pBroadcast = some (connectToPeer sampleEnv).1 :=
  (connectToPeer_strict_tier_order sampleEnv).2.2.1 Tier.p2pBroadcast rfl

/-- C10: when a registered listener throws, `emit` catches the exception (the
caller never sees it — `emit` still returns its full invocation log) and every
listener after the throwing one is still invoked, in registration order, with
the same results it would have produced anyway. -/
theorem emit_catches_and_continues {α ε β : Type}
    (m : List (String × List (α → Except ε β)))
    (event : String) (ls1 ls2 : List (α → Except ε β)) (l : α → Except ε β)
    (x : α) (e : ε) (hm : mapGet m event = some (ls1 ++ l :: ls2))
    (hl : l x = .error e) :
    emit m event x
      = ls1.map (fun f => invokeCaught f x) ++ none :: ls2.map (fun f => invokeCaught f x)
    ∧ (emit m event x).length = ls1.length + 1 + ls2.length := by
  constructor
  · simp [emit, hm, invokeCaught, hl]
  · simp [emit, hm]
    omega

/-- Witness for C10: on the concrete emitter the throwing first listener is
caught and the second listener still runs. -/
theorem emit_catches_and_continues_witness :
    emit sampleEmitter "message" 7
      = ([] : List (Nat → Except String Nat)).map (fun f => invokeCaught f 7)
          ++ none :: [fun n : Nat => (Except.ok (n + 1) : Except String Nat)].map
            (fun f => invokeCaught f 7)
    ∧ (emit sampleEmitter "message" 7).length = 0 + 1 + 1 :=
  emit_catches_and_continues sampleEmitter "message" []
    [fun n => .ok (n + 1)] (fun _ => .error "listener blew up") 7 "listener blew up"
    rfl rfl

/-- Reading back the digits of `jsNumToString` recovers the number. -/
theorem decodeDecimal_jsNumToString (n : Nat) : decodeDecimal (jsNumToString n) = n := by
  by_cases h : n = 0
  · subst h; rfl
  · have hdig : ∀ d < 10, (Nat.digitChar d).toNat - 48 = d := by decide
    unfold jsNumToString decodeDecimal
    simp only [h, if_false]
    rw [List.map_reverse, List.reverse_reverse, List.map_map]
    have : (Nat.digits 10 n).map ((fun c => c.toNat - 48) ∘ Nat.digitChar)
        = (Nat.digits 10 n).map id := by
      apply List.map_congr_left
      intro d hd
      exact hdig d (Nat.digits_lt_base (by norm_num) hd)
    rw [this, List.map_id, Nat.ofDigits_digits]

/-- Distinct numbers render to distinct strings. -/
theorem jsNumToString_injective : Function.Injective jsNumToString := by
  intro a b h
  have := congrArg decodeDecimal h
  simpa [decodeDecimal_jsNumToString] using this

/-- Distinct clock readings give distinct peer ids for the same user. -/
theorem getCurrentPeerId_inj (u : Option String) (t1 t2 : Nat)
    (h : t1 ≠ t2) : getCurrentPeerId u t1 ≠ getCurrentPeerId u t2 := by
  intro heq
  apply h
  apply jsNumToString_injective
  apply String.ext
  have hd := congrArg String.data heq
  simp only [getCurrentPeerId, String.data_append, List.append_assoc] at hd
  exact List.append_cancel_left (List.append_cancel_left (List.append_cancel_left hd))

/-- C9: `getCurrentPeerId` embeds the clock reading of the call into the
identifier, so calls at two different clock readings return two different peer
ids; consequently two presence announcements broadcast at different readings
carry different peer ids, and so do two registry announcements — the device
advertises no stable identity. -/
theorem getCurrentPeerId_fresh_each_call (u : Option String) (t1 t2 : Nat)
    (h : t1 ≠ t2) :
    getCurrentPeerId u t1 ≠ getCurrentPeerId u t2
    ∧ (∀ st : PMState, ∀ msg1 msg2 : PresenceMsg,
        broadcastPresenceToP2P st t1 = some msg1 →
        broadcastPresenceToP2P st t2 = some msg2 → msg1.peerId ≠ msg2.peerId)
    ∧ (∀ st : PMState, ∀ b1 b2 : String × String × List String,
        announcePresenceBody st t1 = some b1 →
        announcePresenceBody st t2 = some b2 → b1.1 ≠ b2.1) := by
  refine ⟨getCurrentPeerId_inj u t1 t2 h, ?_, ?_⟩
  · intro st msg1 msg2 h1 h2
    cases hcu : st.currentUserId with
    | none => simp [broadcastPresenceToP2P, hcu] at h1
    | some uid =>
      cases hcn : st.currentNetworkId with
      | none => simp [broadcastPresenceToP2P, hcu, hcn] at h1
      | some nid =>
        by_cases hguard : uid = "" ∨ nid = ""
        · simp [broadcastPresenceToP2P, hcu, hcn, hguard] at h1
        · simp only [broadcastPresenceToP2P, hcu, hcn, if_neg hguard,
            Option.some.injEq] at h1 h2
          rw [← h1, ← h2]
          exact getCurrentPeerId_inj (some uid) t1 t2 h
  · intro st b1 b2 h1 h2
    cases hcn : st.currentNetworkId with
    | none => simp [announcePresenceBody, hcn] at h1
    | some nid =>
      simp only [announcePresenceBody, hcn, Option.some.injEq] at h1 h2
      rw [← h1, ← h2]
      exact getCurrentPeerId_inj st.currentUserId t1 t2 h

/-- Witness for C9: concrete clock readings 1 and 2 give different peer ids. -/
theorem getCurrentPeerId_fresh_each_call_witness :
    getCurrentPeerId (some "alice") 1 ≠ getCurrentPeerId (some "alice") 2 :=
  (getCurrentPeerId_fresh_each_call (some "alice") 1 2 (by decide)).1

/-- C2 counterexample: a presence announcement whose timestamp (5) is older
than the stored record's lastSeen (10) still overwrites the record — the
signal address is replaced and lastSeen moves backward — because
`handlePresenceAnnouncement` (like the persistent `storePeerRoute` write) has
no freshness check on this path. -/
theorem presence_stale_update_overwrites :
    (mapGet stC2.peerCache "p1").map
        (fun r => (r.lastSeen, r.signalAddress, r.connectionPath))
      = some (10, "old-addr", some "via bob")
    ∧ staleMsgC2.timestamp ≤ 10
    ∧ (mapGet (handlePresenceAnnouncement stC2 staleMsgC2 "p1" 100).peerCache
        "p1").map (fun r => (r.lastSeen, r.signalAddress, r.connectionPath))
      = some (5, "new-addr", none) := by
  refine ⟨rfl, by decide, ?_⟩
  rfl

/-- C2 (amended): only the gossip merge paths are guarded. A gossiped peer
sample never overwrites an existing peer-cache record (known peer ids are
skipped entirely), and a gossiped member-status sample whose lastSeen is at
most the stored entry's does not overwrite it. The announcer's own record and
the persistent route write, by contrast, are applied unconditionally (see the
counterexample). -/
theorem gossip_merge_is_guarded (reporter : String) (curUser : Option String)
    (st : PMState) (gp : GossipPeer) (pid : String) (rec : PeerInfo)
    (hmem : mapGet st.peerCache pid = some rec)
    (m : MemberSample) (cur : PeerStatus)
    (hcur : mapGet st.networkMembers m.userId = some cur)
    (hstale : m.lastSeen ≤ cur.lastSeen) :
    mapGet (addGossipPeer reporter curUser st gp).peerCache pid = some rec
    ∧ (mergeMemberSample reporter st m).networkMembers = st.networkMembers := by
  constructor
  · unfold addGossipPeer
    by_cases hskip : curUser = some gp.userId ∨ mapHas st.peerCache gp.peerId
    · rw [if_pos hskip]
      exact hmem
    · rw [if_neg hskip]
      push_neg at hskip
      have hnot : mapHas st.peerCache gp.peerId = false := by
        cases h : mapHas st.peerCache gp.peerId
        · rfl
        · exact absurd h hskip.2
      have hne : pid ≠ gp.peerId := by
        intro hh
        rw [hh, mapGet_eq_none_of_not_has _ _ hnot] at hmem
        exact Option.noConfusion hmem
      rw [(pmStorePeerRoute_preserves_mem _ _).1]
      rw [show ({ st with peerCache := mapSet st.peerCache gp.peerId _ } : PMState).peerCache
            = mapSet st.peerCache gp.peerId _ from rfl]
      rw [mapGet_mapSet_ne _ _ _ _ hne]
      exact hmem
  · simp [mergeMemberSample, hcur, Nat.not_lt.mpr hstale]

/-- Witness for the amended C2 on concrete data: the unknown gossiped peer does
not disturb the cached record, and the stale member sample leaves the stored
status untouched. -/
theorem gossip_merge_is_guarded_witness :
    mapGet (addGossipPeer "carol" (some "dave") stC2w gpC2w).peerCache "p9"
      = some cachedRecC2
    ∧ (mergeMemberSample "carol" stC2w memberC2w).networkMembers
      = stC2w.networkMembers :=
  gossip_merge_is_guarded "carol" (some "dave") stC2w gpC2w "p9" cachedRecC2
    (by decide) memberC2w eveStatusC2w (by decide) (by decide)

/-- An `INSERT OR REPLACE` always leaves the inserted row in the table. -/
theorem self_mem_storeOfflineMessageSvc (rows : List OfflineMessage)
    (m : OfflineMessage) : m ∈ storeOfflineMessageSvc rows m := by
  unfold storeOfflineMessageSvc
  cases hany : rows.any (fun q => q.messageId == m.messageId) with
  | false => simp
  | true =>
    rw [if_pos rfl]
    obtain ⟨q, hq, hqm⟩ := List.any_eq_true.mp hany
    have heq : (fun q => if q.messageId == m.messageId then m else q) q = m := by
      simp [hqm]
    have hmem := List.mem_map_of_mem
      (fun q => if q.messageId == m.messageId then m else q) hq
    rw [heq] at hmem
    exact hmem

/-- C3 counterexample: with no current network id, `sendMessage` returns false
and the message lands only in the in-memory queue — nothing is written to the
persistent offline-message store, so `false` does not imply a durable
`QueuedMessage` row. -/
theorem sendMessage_false_not_durably_queued :
    (sendMessage stC3 envC3 "dora" "hi" 1000 "r1").1 = false
    ∧ ((sendMessage stC3 envC3 "dora" "hi" 1000 "r1").2).storage.offlineMessages = []
    ∧ mapGet ((sendMessage stC3 envC3 "dora" "hi" 1000 "r1").2).messageQueue "dora"
        = some [{ payload := "hi", queuedAt := 1000 }] := by
  refine ⟨rfl, rfl, ?_⟩
  rfl

/-- C3 (amended): whenever `sendMessage` returns false, the message has been
appended to the user's in-memory queue; a `QueuedMessage` row (generated id,
`retryCount` 0, the current network id) is additionally written to the
persistent store provided a current network id is set — with none set the
persistent store is left untouched and the message survives only in memory. -/
theorem sendMessage_false_queues (st : PMState) (env : SendEnv)
    (userId payload : String) (now : Nat) (rand : String)
    (hfail : (sendMessage st env userId payload now rand).1 = false) :
    mapGet ((sendMessage st env userId payload now rand).2).messageQueue userId
      = some ((mapGet st.messageQueue userId).getD []
          ++ [{ payload := payload, queuedAt := now }])
    ∧ (∀ nid, st.currentNetworkId = some nid →
        ({ messageId := mkMessageId now rand, toUserId := userId,
           content := payload, queuedAt := now, retryCount := 0,
           networkId := nid } : OfflineMessage)
          ∈ ((sendMessage st env userId payload now rand).2).storage.offlineMessages)
    ∧ (st.currentNetworkId = none →
        ((sendMessage st env userId payload now rand).2).storage = st.storage) := by
  unfold sendMessage at hfail ⊢
  split_ifs at hfail ⊢ with h1 h2
  refine ⟨?_, ?_, ?_⟩
  · cases hnid : st.currentNetworkId <;>
      simp [storeOfflineMessageLocally, queueMessage, hnid, mapGet_mapSet_self]
  · intro nid hnid
    simp only [storeOfflineMessageLocally, queueMessage, hnid]
    exact self_mem_storeOfflineMessageSvc _ _
  · intro hnid
    simp [storeOfflineMessageLocally, queueMessage, hnid]

/-- Witness for the amended C3: with an active network id and both delivery
paths unavailable, the failed send leaves the message both in the in-memory
queue and as a persistent offline-message row. -/
theorem sendMessage_false_queues_witness :
    mapGet ((sendMessage stC3w envC3 "dora" "hi" 3 "r1").2).messageQueue "dora"
      = some ((mapGet stC3w.messageQueue "dora").getD []
          ++ [{ payload := "hi", queuedAt := 3 }])
    ∧ ({ messageId := mkMessageId 3 "r1", toUserId := "dora", content := "hi",
         queuedAt := 3, retryCount := 0, networkId := "net" } : OfflineMessage)
        ∈ ((sendMessage stC3w envC3 "dora" "hi" 3 "r1").2).storage.offlineMessages :=
  have h := sendMessage_false_queues stC3w envC3 "dora" "hi" 3 "r1" rfl
  ⟨h.1, h.2.1 "net" rfl⟩

/-- C4 counterexample: six establishments with no close and no sweep leave six
entries in the pool — above the declared ceiling of five, which no code path
consults; nothing is evicted before an attempt is accepted. -/
theorem pool_exceeds_ceiling :
    connectSix.connections.length = 6 ∧ MAX_ACTIVE_CONNECTIONS < 6 := by
  refine ⟨?_, by decide⟩
  rfl

/-- C4 (amended): the ceiling is not enforced. From any state — however full —
a successful `establishConnection` on a new peer id grows the pool by one, and
the periodic sweep is the only eviction: it removes exactly the `failed`
entries and the stale (over 60 s old) non-`connected` ones. -/
theorem pool_unbounded_sweep_exact (st : PMState) (p : PeerInfo) (now : Nat)
    (h : mapHas st.connections p.peerId = false) :
    ((establishConnection st p true now).2).connections.length
      = st.connections.length + 1
    ∧ ∀ pid conn, ((pid, conn) ∈ (cleanupStaleConnections st now).connections ↔
        ((pid, conn) ∈ st.connections
          ∧ ¬(conn.state = .failed
              ∨ (now - conn.connectedAt > 60000 ∧ conn.state ≠ .connected)))) := by
  constructor
  · cases hn : st.currentNetworkId <;>
      simp [establishConnection, updatePeerStatus, pmStorePeerRoute, hn,
        length_mapSet_of_not_has _ _ _ h]
  · intro pid conn
    simp only [cleanupStaleConnections, List.mem_filter]
    constructor
    · rintro ⟨hmem, hcond⟩
      simp only [Bool.not_eq_true', Bool.or_eq_false_iff, Bool.and_eq_false_iff] at hcond
      refine ⟨hmem, ?_⟩
      rintro (hb | ⟨hb1, hb2⟩)
      · simp [hb] at hcond
      · rcases hcond.2 with hc | hc
        · rw [decide_eq_false_iff_not] at hc
          exact hc hb1
        · simp at hc
          exact hb2 hc
    · rintro ⟨hmem, hcond⟩
      push_neg at hcond
      refine ⟨hmem, ?_⟩
      simp only [Bool.not_eq_true', Bool.or_eq_false_iff, Bool.and_eq_false_iff]
      refine ⟨by simpa using hcond.1, ?_⟩
      by_cases hst : conn.state = ConnState.connected
      · right
        simp [hst]
      · left
        rw [decide_eq_false_iff_not]
        exact fun hgt => hst (hcond.2 hgt)

/-- Witness for the amended C4: on the two-entry pool a third connection is
accepted without eviction, and the sweep's membership rule evaluated on the
failed entry. -/
theorem pool_unbounded_sweep_exact_witness :
    ((establishConnection stC4w (mkPeerC4 "u" "pc") true 70000).2).connections.length
      = stC4w.connections.length + 1
    ∧ (("pb", connB) ∈ (cleanupStaleConnections stC4w 70000).connections ↔
        (("pb", connB) ∈ stC4w.connections
          ∧ ¬(connB.state = .failed
              ∨ (70000 - connB.connectedAt > 60000 ∧ connB.state ≠ .connected)))) :=
  have h := pool_unbounded_sweep_exact stC4w (mkPeerC4 "u" "pc") 70000 (by decide)
  ⟨h.1, h.2 "pb" connB⟩

/-- C5: `cleanupStaleData` does not implement the claimed 24-hour message TTL
(despite the source's own inline comment) nor a working 7-day route cutoff. At
`nowC5` with the default 7-day `maxAge`, the single cutoff is computed in
seconds while `queued_at` and `last_seen` hold milliseconds: the 25-hour-old
queued message and even the 8-day-old route are retained, while the 8-day-old
connection row — whose `last_ping` is in seconds — is deleted by the very same
cutoff. -/
theorem cleanupStaleData_retains_expired_rows :
    (cleanupStaleData dbC5 "net" DEFAULT_MAX_AGE nowC5).offlineMessages = [msgC5]
    ∧ (cleanupStaleData dbC5 "net" DEFAULT_MAX_AGE nowC5).peerRoutes = [routeC5]
    ∧ (cleanupStaleData dbC5 "net" DEFAULT_MAX_AGE nowC5).activeConnections = [] := by
  refine ⟨?_, ?_, ?_⟩ <;> rfl

/-- Gluing two sorted phase lists across a bound keeps them sorted. -/
theorem sorted_le_append_of {l1 l2 : List Nat} (c : Nat)
    (h1 : l1.Sorted (· ≤ ·)) (hub : ∀ x ∈ l1, x ≤ c)
    (h2 : l2.Sorted (· ≤ ·)) (hlb : ∀ x ∈ l2, c ≤ x) :
    (l1 ++ l2).Sorted (· ≤ ·) :=
  List.pairwise_append.mpr ⟨h1, h2, fun a ha b hb => le_trans (hub a ha) (hlb b hb)⟩

/-- A conditional singleton block is phase-sorted. -/
theorem sorted_phase_ite {b : Bool} {e : TdEvent} :
    (((if b then [e] else []) : List TdEvent).map tdPhase).Sorted (· ≤ ·) := by
  cases b <;> simp

/-- Upper phase bound of a conditional singleton block. -/
theorem ub_phase_ite {b : Bool} {e : TdEvent} {c : Nat} (h : tdPhase e ≤ c) :
    ∀ x ∈ ((if b then [e] else []) : List TdEvent).map tdPhase, x ≤ c := by
  cases b <;> simp_all

/-- Lower phase bound of a conditional singleton block. -/
theorem lb_phase_ite {b : Bool} {e : TdEvent} {c : Nat} (h : c ≤ tdPhase e) :
    ∀ x ∈ ((if b then [e] else []) : List TdEvent).map tdPhase, c ≤ x := by
  cases b <;> simp_all

/-- A block of events built by one constructor is phase-sorted. -/
theorem sorted_phase_map {β : Type} {l : List β} {f : β → TdEvent}
    (h : ∀ y z, tdPhase (f y) ≤ tdPhase (f z)) :
    ((l.map f).map tdPhase).Sorted (· ≤ ·) := by
  rw [List.map_map]
  induction l with
  | nil => simp
  | cons a t ih =>
    rw [List.map_cons, List.sorted_cons]
    refine ⟨fun x hx => ?_, ih⟩
    obtain ⟨y, _, rfl⟩ := List.mem_map.1 hx
    exact h a y

/-- Upper phase bound of a single-constructor block. -/
theorem ub_phase_map {β : Type} {l : List β} {f : β → TdEvent} {c : Nat}
    (h : ∀ y, tdPhase (f y) ≤ c) : ∀ x ∈ (l.map f).map tdPhase, x ≤ c := by
  intro x hx
  rw [List.map_map] at hx
  obtain ⟨y, _, rfl⟩ := List.mem_map.1 hx
  exact h y

/-- Lower phase bound of a single-constructor block. -/
theorem lb_phase_map {β : Type} {l : List β} {f : β → TdEvent} {c : Nat}
    (h : ∀ y, c ≤ tdPhase (f y)) : ∀ x ∈ (l.map f).map tdPhase, c ≤ x := by
  intro x hx
  rw [List.map_map] at hx
  obtain ⟨y, _, rfl⟩ := List.mem_map.1 hx
  exact h y

/-- A lower bound distributes over concatenation. -/
theorem lb_append {l1 l2 : List Nat} {c : Nat} (h1 : ∀ x ∈ l1, c ≤ x)
    (h2 : ∀ x ∈ l2, c ≤ x) : ∀ x ∈ l1 ++ l2, c ≤ x := by
  intro x hx
  rcases List.mem_append.1 hx with h | h
  exacts [h1 x h, h2 x h]

/-- C6: the teardown trace of `destroy` is phase-monotone — every timer stop
precedes every connection close, which precedes the signaling-channel close,
then the disposal of leftover negotiation contexts, then every discovery-request
cancellation, then the in-memory cache clear, and finally the persistent-cache
close — and the trace is complete: every running timer is stopped, every pooled
connection closed, the open signaling channel closed, every in-flight request
cancelled, and the caches cleared before the storage handle is closed. -/
theorem destroy_teardown_order (st : TeardownState) :
    ((destroyTrace st).map tdPhase).Sorted (· ≤ ·)
    ∧ (st.heartbeatTimer = true → TdEvent.stopHeartbeat ∈ destroyTrace st)
    ∧ (st.coordinatorTimer = true → TdEvent.stopCoordinator ∈ destroyTrace st)
    ∧ (st.p2pPresenceTimer = true → TdEvent.stopP2pPresence ∈ destroyTrace st)
    ∧ (st.registryPresenceTimer = true → TdEvent.stopRegistryPresence ∈ destroyTrace st)
    ∧ (∀ pid ∈ st.poolPeerIds, TdEvent.closeConn pid ∈ destroyTrace st)
    ∧ (st.signalingOpen = true → TdEvent.closeSignaling ∈ destroyTrace st)
    ∧ (∀ rid ∈ st.discoveryIds, TdEvent.cancelDiscovery rid ∈ destroyTrace st)
    ∧ TdEvent.clearCaches ∈ destroyTrace st
    ∧ TdEvent.closeStorage ∈ destroyTrace st := by
  have lbtriv : ∀ (l : List Nat), ∀ x ∈ l, 0 ≤ x := fun l x _ => Nat.zero_le x
  refine ⟨?_, ?_, ?_, ?_, ?_, ?_, ?_, ?_, ?_, ?_⟩
  · simp only [destroyTrace, List.map_append, List.append_assoc]
    refine sorted_le_append_of 0 sorted_phase_ite (ub_phase_ite (by decide)) ?_ (lbtriv _)
    refine sorted_le_append_of 0 sorted_phase_ite (ub_phase_ite (by decide)) ?_ (lbtriv _)
    refine sorted_le_append_of 0 sorted_phase_ite (ub_phase_ite (by decide)) ?_ (lbtriv _)
    refine sorted_le_append_of 0 sorted_phase_ite (ub_phase_ite (by decide)) ?_ (lbtriv _)
    refine sorted_le_append_of 1
      (sorted_phase_map (fun _ _ => le_refl _)) (ub_phase_map (fun _ => le_refl _)) ?_ ?_
    · refine sorted_le_append_of 2 sorted_phase_ite (ub_phase_ite (by decide)) ?_ ?_
      · refine sorted_le_append_of 3
          (sorted_phase_map (fun _ _ => le_refl _)) (ub_phase_map (fun _ => le_refl _)) ?_ ?_
        · refine sorted_le_append_of 4
            (sorted_phase_map (fun _ _ => le_refl _)) (ub_phase_map (fun _ => le_refl _)) ?_ ?_
          · simp [List.sorted_cons, tdPhase]
          · intro x hx
            simp [tdPhase] at hx
            omega
        · refine lb_append (lb_phase_map (fun _ => by simp [tdPhase])) ?_
          intro x hx
          simp [tdPhase] at hx
          omega
      · refine lb_append (lb_phase_map (fun _ => by simp [tdPhase])) ?_
        refine lb_append (lb_phase_map (fun _ => by simp [tdPhase])) ?_
        intro x hx
        simp [tdPhase] at hx
        omega
    · refine lb_append (lb_phase_ite (by decide)) ?_
      refine lb_append (lb_phase_map (fun _ => by simp [tdPhase])) ?_
      refine lb_append (lb_phase_map (fun _ => by simp [tdPhase])) ?_
      intro x hx
      simp [tdPhase] at hx
      omega
  · intro h
    simp [destroyTrace, h]
  · intro h
    simp [destroyTrace, h]
  · intro h
    simp [destroyTrace, h]
  · intro h
    simp [destroyTrace, h]
  · intro pid hpid
    simp [destroyTrace]
    exact hpid
  · intro h
    simp [destroyTrace, h]
  · intro rid hrid
    simp [destroyTrace]
    exact hrid
  · simp [destroyTrace]
  · simp [destroyTrace]

/-- Witness for C6 on the concrete session `stC6`. -/
theorem destroy_teardown_order_witness :
    ((destroyTrace stC6).map tdPhase).Sorted (· ≤ ·)
    ∧ TdEvent.stopHeartbeat ∈ destroyTrace stC6
    ∧ TdEvent.closeConn "pa" ∈ destroyTrace stC6
    ∧ TdEvent.closeSignaling ∈ destroyTrace stC6
    ∧ TdEvent.cancelDiscovery "r1" ∈ destroyTrace stC6
    ∧ TdEvent.clearCaches ∈ destroyTrace stC6
    ∧ TdEvent.closeStorage ∈ destroyTrace stC6 :=
  have h := destroy_teardown_order stC6
  ⟨h.1, h.2.1 rfl, h.2.2.2.2.2.1 "pa" (by decide), h.2.2.2.2.2.2.1 rfl,
    h.2.2.2.2.2.2.2.1 "r1" (by decide), h.2.2.2.2.2.2.2.2.1, h.2.2.2.2.2.2.2.2.2⟩

/-- C7 counterexample: when `webrtcService.destroy()` throws, `destroy`
propagates the exception to its caller and the remaining teardown steps —
clearing caches, cleaning and closing storage, removing listeners — never run:
teardown is abandoned partway. -/
theorem destroy_not_total :
    (destroySteps stC6 envC7bad).2 = true
    ∧ TdStep.clearMemCaches ∉ (destroySteps stC6 envC7bad).1
    ∧ TdStep.closeStorageHandle ∉ (destroySteps stC6 envC7bad).1 := by
  refine ⟨rfl, by decide, by decide⟩

/-- C7 (amended): only `cleanupStaleData` and `peerStorage.close()` are
individually guarded; an exception from the connection-close loop or from
`webrtcService.destroy()` propagates and abandons the remaining steps (see the
counterexample). Conversely, when neither unguarded collaborator throws,
`destroy` executes every step and returns normally, whatever the guarded
storage steps do. -/
theorem destroy_total_unless_unguarded_throw (st : TeardownState)
    (env : DestroyEnv)
    (h1 : ∀ pid ∈ st.poolPeerIds, env.closeConnThrows pid = false)
    (h2 : env.webrtcDestroyThrows = false) :
    destroySteps st env = (allTdSteps, false) := by
  unfold destroySteps
  have hany : st.poolPeerIds.any env.closeConnThrows = false := by
    rw [List.any_eq_false]
    intro x hx
    simp [h1 x hx]
  simp [hany, h2]

/-- Witness for the amended C7: with throwing guarded steps but healthy
unguarded ones, teardown still runs to completion and returns normally. -/
theorem destroy_total_unless_unguarded_throw_witness :
    destroySteps stC6 envC7ok = (allTdSteps, false) :=
  destroy_total_unless_unguarded_throw stC6 envC7ok (fun _ _ => rfl) rfl

/-- A recorded resolution survives any sequence of later events: the results
ledger only ever grows at its end, and lookup returns the first binding. -/
theorem discRun_preserves_result (evs : List DiscEvent) (s : DiscState)
    (rid : String) (v : Option PeerFoundInfo)
    (h : mapGet s.results rid = some v) :
    mapGet (discRun s evs).results rid = some v := by
  induction evs generalizing s with
  | nil => exact h
  | cons ev rest ih =>
    apply ih
    cases ev with
    | peerFound r info =>
      by_cases hr : r ∈ s.pending <;>
        simp [discStep, hr, mapGet_append, h, Option.or]
    | timeoutFire r =>
      by_cases hr : r ∈ s.pending <;>
        simp [discStep, hr, mapGet_append, h, Option.or]

/-- C8: the first event that targets a pending discovery request is
authoritative — a `PEER_FOUND` reply resolves it to the found peer, the timeout
resolves it to not-found — and the request id is retired at once; every later
event (duplicate replies, late replies after the timeout) leaves the recorded
resolution unchanged, and an event for an id that is no longer pending does not
change the table at all. -/
theorem discovery_first_event_wins (s : DiscState) (rid : String)
    (hnodup : s.pending.Nodup) (hpend : rid ∈ s.pending)
    (hres : mapGet s.results rid = none) (ev : DiscEvent)
    (htgt : discTarget ev = rid) (evs : List DiscEvent) :
    mapGet (discRun s (ev :: evs)).results rid = some (discResolution ev)
    ∧ rid ∉ (discStep s ev).pending
    ∧ (∀ s' : DiscState, rid ∉ s'.pending → ∀ info,
        discStep s' (DiscEvent.peerFound rid info) = s') := by
  have hstep : mapGet (discStep s ev).results rid = some (discResolution ev)
      ∧ rid ∉ (discStep s ev).pending := by
    cases ev with
    | peerFound r info =>
      simp only [discTarget] at htgt
      subst htgt
      have hred : discStep s (DiscEvent.peerFound r info)
          = { pending := s.pending.erase r,
              results := s.results ++ [(r, some info)] } := by
        simp [discStep, hpend]
      rw [hred]
      constructor
      · show mapGet (s.results ++ [(r, some info)]) r = some (some info)
        rw [mapGet_append, hres]
        simp [mapGet, Option.or]
      · intro hmem
        exact (hnodup.mem_erase_iff.mp hmem).1 rfl
    | timeoutFire r =>
      simp only [discTarget] at htgt
      subst htgt
      have hred : discStep s (DiscEvent.timeoutFire r)
          = { pending := s.pending.erase r,
              results := s.results ++ [(r, none)] } := by
        simp [discStep, hpend]
      rw [hred]
      constructor
      · show mapGet (s.results ++ [(r, none)]) r = some none
        rw [mapGet_append, hres]
        simp [mapGet, Option.or]
      · intro hmem
        exact (hnodup.mem_erase_iff.mp hmem).1 rfl
  refine ⟨?_, hstep.2, ?_⟩
  · exact discRun_preserves_result evs _ rid _ hstep.1
  · intro s' hs' info
    simp [discStep, hs']

/-- Witness for C8: the first reply wins on the concrete table and the later
timeout and duplicate reply leave its resolution untouched. -/
theorem discovery_first_event_wins_witness :
    mapGet (discRun sC8 (DiscEvent.peerFound "q1" infoC8
        :: [DiscEvent.timeoutFire "q1", DiscEvent.peerFound "q1" infoC8b])).results "q1"
      = some (discResolution (DiscEvent.peerFound "q1" infoC8))
    ∧ "q1" ∉ (discStep sC8 (DiscEvent.peerFound "q1" infoC8)).pending :=
  have h := discovery_first_event_wins sC8 "q1" (by decide) (by decide) rfl
    (DiscEvent.peerFound "q1" infoC8) rfl
    [DiscEvent.timeoutFire "q1", DiscEvent.peerFound "q1" infoC8b]
  ⟨h.1, h.2.1⟩

end PrivNet
